import Mathlib

/-!
Verification development for the LifeTreeSimulator repository.

The definitions below are a shallow embedding of `src/graph.ts`,
`src/App.tsx` (the `expandNode` handler) and `src/openai.ts` (the age
continuity fix of `generateChildScenariosStreaming`).  JavaScript numbers
are modelled as real numbers (`ℝ`), node identifiers as `ℕ`, and the two
age fields as `ℤ` (the generator schema constrains them to integers).
In-place mutation of the single global graph is modelled by explicit
state passing: each TypeScript function becomes a function from the graph
(and the random draws / wall-clock delta it consumes) to the new graph.
`Math.random()` draws and the `Date.now()` based `deltaTime` are passed
in as explicit parameters.
-/

noncomputable section

/-- Node record, mirroring the `Node` interface of `graph.ts`.  The
`initialized` latch field of the TS `Graph` is called `initDone` here and
the TS field is documented at `Graph`. -/
structure Node where
  id : ℕ
  title : String
  change : String
  ageYears : ℤ
  ageWeeks : ℤ
  location : String
  relationshipStatus : String
  livingSituation : String
  careerSituation : String
  monthlyIncome : ℝ
  hairColor : String
  hairStyle : String
  eyeColor : String
  facialHair : String
  glasses : String
  build : String
  parentId : Option ℕ
  x : ℝ
  y : ℝ
  vx : ℝ
  vy : ℝ
  targetWidth : ℝ
  targetHeight : ℝ
  currentWidth : ℝ
  currentHeight : ℝ
  expanded : Bool
  isGrowing : Bool
  isLoading : Bool
  growthProgress : ℝ
  generatedImageUrl : Option String

/-- Edge record, mirroring the `Edge` interface of `graph.ts`. -/
structure Edge where
  fromId : ℕ
  toId : ℕ
  currentLength : ℝ
  targetLength : ℝ

/-- Graph record, mirroring the `Graph` interface of `graph.ts`;
`initDone` models the TS field written `initialized` there. -/
structure Graph where
  nodes : List Node
  edges : List Edge
  initDone : Bool

/-- Physics configuration record, mirroring `PhysicsConfig` of `graph.ts`. -/
structure PhysicsConfig where
  repulsionStrength : ℝ
  repulsionRange : ℝ
  springStrength : ℝ
  springLength : ℝ
  friction : ℝ
  gravityStrength : ℝ
  maxVelocity : ℝ

/-- Default configuration values, mirroring the `physicsConfig` literal of
`graph.ts`. -/
def physicsConfig : PhysicsConfig :=
  { repulsionStrength := 30000
    repulsionRange := 400
    springStrength := 0.076
    springLength := 520
    friction := 0.85
    gravityStrength := 0.15
    maxVelocity := 20 }

/-- Constant `MIN_DISTANCE` of `graph.ts`. -/
def MIN_DISTANCE : ℝ := 10

/-- Constant `GROWTH_DURATION` of `graph.ts` (seconds of size animation). -/
def GROWTH_DURATION : ℝ := 1.5

/-- Constant unit timestep `const dt = 1` used inside `updatePhysics`. -/
def dtUnit : ℝ := 1

/-- Growth factor for physics, mirroring `getGrowthFactor` of `graph.ts`. -/
def getGrowthFactor (node : Node) : ℝ :=
  node.growthProgress

/-- Lookup of a node by id, mirroring `findNode` of `graph.ts`
(`Array.prototype.find` returns the first match). -/
def findNodeL (nodes : List Node) (id : ℕ) : Option Node :=
  nodes.find? fun node => node.id == id

/-- Lookup on a whole graph, the form `findNode` takes in `graph.ts`. -/
def findNode (g : Graph) (id : ℕ) : Option Node :=
  findNodeL g.nodes id

/-- Node creation, mirroring `createNode` of `graph.ts`.  The single
`Math.random()` draw is the explicit parameter `rand`; the graph is passed
explicitly because the TS code reads the module-level `graph` through
`findNode`. -/
def createNode (g : Graph) (rand : ℝ) (id : ℕ) (title change : String)
    (ageYears ageWeeks : ℤ)
    (location relationshipStatus livingSituation careerSituation : String)
    (monthlyIncome : ℝ)
    (hairColor hairStyle eyeColor facialHair glasses build : String)
    (parentId : Option ℕ) : Node :=
  -- Initialize near parent if it exists (initialX / initialY of the source)
  let pos : ℝ × ℝ :=
    match parentId with
    | some pid =>
      match findNode g pid with
      | some parent => (parent.x + (rand - 0.5) * 100, parent.y - 150)
      | none => (0, 0)
    | none => (0, 0)
  let isNew : Bool := parentId.isSome
  { id := id
    title := title
    change := change
    ageYears := ageYears
    ageWeeks := ageWeeks
    location := location
    relationshipStatus := relationshipStatus
    livingSituation := livingSituation
    careerSituation := careerSituation
    monthlyIncome := monthlyIncome
    hairColor := hairColor
    hairStyle := hairStyle
    eyeColor := eyeColor
    facialHair := facialHair
    glasses := glasses
    build := build
    parentId := parentId
    x := pos.1
    y := pos.2
    vx := 0
    vy := 0
    targetWidth := 270
    targetHeight := 160
    currentWidth := if isNew then 0 else 270
    currentHeight := if isNew then 0 else 160
    expanded := false
    isGrowing := isNew
    isLoading := false
    growthProgress := if isNew then 0 else 1
    generatedImageUrl := none }

/-- Edge creation, mirroring `createEdge` of `graph.ts`. -/
def createEdge (fromId toId : ℕ) : Edge :=
  { fromId := fromId
    toId := toId
    currentLength := 0
    targetLength := physicsConfig.springLength }

/-- Insertion, mirroring `addNode` of `graph.ts`: pushes the node and, when
it has a parent, pushes the connecting edge. -/
def addNode (g : Graph) (node : Node) : Graph :=
  let g1 : Graph := { g with nodes := g.nodes ++ [node] }
  match node.parentId with
  | some pid => { g1 with edges := g1.edges ++ [createEdge pid node.id] }
  | none => g1

/-- Children query, mirroring `getChildren` of `graph.ts`. -/
def getChildren (g : Graph) (nodeId : ℕ) : List Node :=
  let childEdges := g.edges.filter fun edge => edge.fromId == nodeId
  childEdges.filterMap fun edge => findNode g edge.toId

/-- Leaf test, mirroring `isLeafNode` of `graph.ts`. -/
def isLeafNode (g : Graph) (nodeId : ℕ) : Bool :=
  (getChildren g nodeId).length == 0

/-! Physics engine: phases of `updatePhysics` of `graph.ts`, in source
order.  The wall-clock `deltaTime` (in seconds) is an explicit parameter;
`foreach` loops that mutate elements in place become folds that update the
list with `List.set`, and mutation through an object reference obtained
from `find` becomes an update of the first matching list entry. -/

/-- Update of the first entry satisfying `p`, the effect of mutating the
object returned by `Array.prototype.find`. -/
def updateFirst (p : α → Bool) (f : α → α) : List α → List α
  | [] => []
  | a :: as => if p a then f a :: as else a :: updateFirst p f as

/-- Removal of the first entry satisfying `p`, the combined effect of
`findIndex` followed by `splice(index, 1)` (no match, index `-1`: no
removal). -/
def removeFirst (p : α → Bool) : List α → List α
  | [] => []
  | a :: as => if p a then as else a :: removeFirst p as

/-- Growth animation advance for one node, the body of the first
`graph.nodes.forEach` of `updatePhysics`. -/
def growNode (deltaTime : ℝ) (node : Node) : Node :=
  if node.isGrowing = true ∧ node.growthProgress < 1 then
    let p0 := node.growthProgress + deltaTime / GROWTH_DURATION
    let p := if p0 ≥ 1 then 1 else p0
    { node with
        growthProgress := p
        currentWidth := node.targetWidth * p
        currentHeight := node.targetHeight * p }
  else node

/-- Growth animation advance for one edge, the body of the
`graph.edges.forEach` of `updatePhysics`. -/
def growEdge (deltaTime : ℝ) (edge : Edge) : Edge :=
  if edge.currentLength < edge.targetLength then
    let growthRate := edge.targetLength / GROWTH_DURATION * deltaTime
    { edge with currentLength := min (edge.currentLength + growthRate) edge.targetLength }
  else edge

/-- Index pairs `(i, j)` with `i < j < n`, in the iteration order of the
double repulsion loop of `updatePhysics`. -/
def allPairs (n : ℕ) : List (ℕ × ℕ) :=
  (List.range n).flatMap fun i => ((List.range n).filter fun j => i < j).map fun j => (i, j)

/-- Repulsion between one pair of nodes, the body of the double loop of
`updatePhysics` (phase 1): opposite velocity impulses on both nodes, skipped
outside the `[MIN_DISTANCE, repulsionRange]` band. -/
def repelPair (l : List Node) (p : ℕ × ℕ) : List Node :=
  match l.get? p.1, l.get? p.2 with
  | some nodeA, some nodeB =>
    let dx := nodeB.x - nodeA.x
    let dy := nodeB.y - nodeA.y
    let distance := Real.sqrt (dx * dx + dy * dy)
    if distance < MIN_DISTANCE ∨ distance > physicsConfig.repulsionRange then l
    else
      let combinedGrowth := getGrowthFactor nodeA * getGrowthFactor nodeB
      let force := physicsConfig.repulsionStrength / (distance * distance) * combinedGrowth
      let fx := dx / distance * force * dtUnit
      let fy := dy / distance * force * dtUnit
      (l.set p.1 { nodeA with vx := nodeA.vx - fx, vy := nodeA.vy - fy }).set p.2
        { nodeB with vx := nodeB.vx + fx, vy := nodeB.vy + fy }
  | _, _ => l

/-- Spring attraction along one edge, the body of the
`graph.edges.forEach` of phase 2 of `updatePhysics`: Hooke force toward the
currently animated edge length, applied as opposite impulses to the parent
and child velocities. -/
def springStep (l : List Node) (edge : Edge) : List Node :=
  match findNodeL l edge.fromId, findNodeL l edge.toId with
  | some parent, some child =>
    let dx := child.x - parent.x
    let dy := child.y - parent.y
    let distance := Real.sqrt (dx * dx + dy * dy)
    if distance < MIN_DISTANCE then l
    else
      let growthFactor := getGrowthFactor child
      let force := physicsConfig.springStrength * (distance - edge.currentLength) * growthFactor
      let fx := dx / distance * force * dtUnit
      let fy := dy / distance * force * dtUnit
      let l1 := updateFirst (fun n => n.id == edge.fromId)
        (fun n => { n with vx := n.vx + fx, vy := n.vy + fy }) l
      updateFirst (fun n => n.id == edge.toId)
        (fun n => { n with vx := n.vx - fx, vy := n.vy - fy }) l1
  | _, _ => l

/-- Constant `UPWARD_MARGIN` of `updatePhysics` (phase 3). -/
def UPWARD_MARGIN : ℝ := 200

/-- Conditional upward gravity for the node at index `k`, the body of the
`graph.nodes.forEach` of phase 3 of `updatePhysics`. -/
def gravityStep (l : List Node) (k : ℕ) : List Node :=
  match l.get? k with
  | none => l
  | some node =>
    match node.parentId with
    | none => l
    | some pid =>
      match findNodeL l pid with
      | none => l
      | some parent =>
        let yDiff := node.y - parent.y
        if yDiff > -UPWARD_MARGIN then
          let growthFactor := getGrowthFactor node
          let strength := (yDiff + UPWARD_MARGIN) * physicsConfig.gravityStrength * growthFactor
          l.set k { node with vy := node.vy - strength * dtUnit }
        else l

/-- Friction, velocity clamping, position integration and root pinning for
one node, the body of the final `graph.nodes.forEach` of `updatePhysics`. -/
def integrateNode (node : Node) : Node :=
  let vx1 := node.vx * physicsConfig.friction
  let vy1 := node.vy * physicsConfig.friction
  let speed := Real.sqrt (vx1 * vx1 + vy1 * vy1)
  let vx2 := if speed > physicsConfig.maxVelocity
    then vx1 / speed * physicsConfig.maxVelocity else vx1
  let vy2 := if speed > physicsConfig.maxVelocity
    then vy1 / speed * physicsConfig.maxVelocity else vy1
  let x2 := node.x + vx2 * dtUnit
  let y2 := node.y + vy2 * dtUnit
  -- Keep root node fixed at origin
  if node.parentId = none then
    { node with x := 0, y := 0, vx := 0, vy := 0 }
  else
    { node with x := x2, y := y2, vx := vx2, vy := vy2 }

/-- One simulation step, mirroring `updatePhysics` of `graph.ts`: early
return on an empty node collection, then node growth, edge growth,
repulsion, spring, gravity, and integration with root pinning. -/
def updatePhysics (deltaTime : ℝ) (g : Graph) : Graph :=
  if g.nodes.length = 0 then g
  else
    let nodes1 := g.nodes.map (growNode deltaTime)
    let edges1 := g.edges.map (growEdge deltaTime)
    let nodes2 := (allPairs nodes1.length).foldl repelPair nodes1
    let nodes3 := edges1.foldl springStep nodes2
    let nodes4 := (List.range nodes3.length).foldl gravityStep nodes3
    let nodes5 := nodes4.map integrateNode
    { g with nodes := nodes5, edges := edges1 }

/-! Graph initialization (`initializeGraph` of `graph.ts`, a name written
here as `initGraph`) and the expansion protocol (`expandNode` of
`App.tsx`).  The asynchronous generation collaborator is opaque: a
successful run delivers a list of scenario records through the
per-record callback, a failed run delivers the records already streamed
before the rejection and then takes the `catch` path that rolls the
placeholders back. -/

/-- Root node literal of `initializeGraph` in `graph.ts` (the `rand` draw
is irrelevant: a parentless node is placed at the origin). -/
def rootNode : Node :=
  createNode { nodes := [], edges := [], initDone := true } 0 0
    ("Your Life Today") ("Fresh graduate ready to start your career journey")
    22 0 ("Boston, MA") ("Single") ("Living with roommates") ("Recent CS Graduate") 0
    ("Dark brown") ("Short and neat") ("Brown") ("Clean shaven")
    ("Black-framed glasses") ("Average build") none

/-- Initialized graph produced by `initializeGraph` of `graph.ts`: the
cleared collections with the single root added and the latch set. -/
def initGraph : Graph :=
  addNode { nodes := [], edges := [], initDone := true } rootNode

/-- Scenario record delivered by the generation collaborator, mirroring
`GeneratedNodeData` of `openai.ts`. -/
structure GeneratedNodeData where
  title : String
  change : String
  ageYears : ℤ
  ageWeeks : ℤ
  location : String
  relationshipStatus : String
  livingSituation : String
  careerSituation : String
  monthlyIncome : ℝ

/-- Placeholder child built in the loop of `expandNode` in `App.tsx`:
`createNode(childId, 'Loading...', 'Generating scenario...', …parent
fields…, nodeId)` with `childId = graph.nodes.length`. -/
def makePlaceholder (g : Graph) (rand : ℝ) (node : Node) (nodeId : ℕ) : Node :=
  createNode g rand g.nodes.length ("Loading...") ("Generating scenario...")
    node.ageYears node.ageWeeks node.location node.relationshipStatus
    node.livingSituation node.careerSituation node.monthlyIncome
    node.hairColor node.hairStyle node.eyeColor node.facialHair
    node.glasses node.build (some nodeId)

/-- Flag mutation `node.expanded = b` through the reference returned by
`graph.nodes.find`: update of the first node with the given id. -/
def setExpanded (g : Graph) (nodeId : ℕ) (b : Bool) : Graph :=
  { g with
      nodes := updateFirst (fun n => n.id == nodeId)
        (fun n => { n with expanded := b }) g.nodes }

/-- Creation of the three placeholder children of `expandNode` (one
`Math.random()` draw per placeholder), returning the grown graph and the
`placeholderNodes` array. -/
def addPlaceholders (g : Graph) (node : Node) (nodeId : ℕ) (r0 r1 r2 : ℝ) :
    Graph × List Node :=
  let c0 := makePlaceholder g r0 node nodeId
  let g0 := addNode g c0
  let c1 := makePlaceholder g0 r1 node nodeId
  let g1 := addNode g0 c1
  let c2 := makePlaceholder g1 r2 node nodeId
  let g2 := addNode g1 c2
  (g2, [c0, c1, c2])

/-- Field overwrite performed by the streaming callback of `expandNode`
on one placeholder: the narrative fields arrive and `isGrowing` is
cleared. -/
def scenarioWrite (s : GeneratedNodeData) (child : Node) : Node :=
  { child with
      title := s.title
      change := s.change
      ageYears := s.ageYears
      ageWeeks := s.ageWeeks
      location := s.location
      relationshipStatus := s.relationshipStatus
      livingSituation := s.livingSituation
      careerSituation := s.careerSituation
      monthlyIncome := s.monthlyIncome
      isGrowing := false }

/-- Streaming callback of `expandNode`: one arriving scenario overwrites
the narrative fields of the placeholder with the given id. -/
def applyScenario (g : Graph) (childId : ℕ) (s : GeneratedNodeData) : Graph :=
  { g with
      nodes := updateFirst (fun n => n.id == childId) (scenarioWrite s) g.nodes }

/-- Sequence of callback invocations: scenario `i` lands in placeholder `i`
(the `nodeIndex` counter stops at the placeholder count, and a short
stream fills only a prefix). -/
def applyScenarios (g : Graph) (ids : List ℕ) (ss : List GeneratedNodeData) : Graph :=
  (ids.zip ss).foldl (fun g pr => applyScenario g pr.1 pr.2) g

/-- Rollback of one placeholder in the `catch` branch of `expandNode`:
`findIndex` + `splice` of the node with the placeholder's id and of the
first edge pointing to it. -/
def removeBatch (g : Graph) (child : Node) : Graph :=
  { g with
      nodes := removeFirst (fun n => n.id == child.id) g.nodes
      edges := removeFirst (fun e => e.toId == child.id) g.edges }

/-- Successful expansion, mirroring `expandNode` of `App.tsx` when the
generation promise resolves: guard, flag set, three placeholders, then the
streamed scenarios overwrite the placeholders in order. -/
def expandNodeOk (g : Graph) (nodeId : ℕ) (r0 r1 r2 : ℝ)
    (ss : List GeneratedNodeData) : Graph :=
  match findNode g nodeId with
  | none => g
  | some node =>
    if node.expanded then g
    else
      let g1 := setExpanded g nodeId true
      let pr := addPlaceholders g1 node nodeId r0 r1 r2
      applyScenarios pr.1 (pr.2.map (fun c => c.id)) ss

/-- Failing expansion, mirroring `expandNode` of `App.tsx` when the
generation promise rejects after streaming the records in `ss`: guard,
flag set, three placeholders, partial stream, then the `catch` branch
removes every placeholder with its inbound edge and reverts the flag. -/
def expandNodeErr (g : Graph) (nodeId : ℕ) (r0 r1 r2 : ℝ)
    (ss : List GeneratedNodeData) : Graph :=
  match findNode g nodeId with
  | none => g
  | some node =>
    if node.expanded then g
    else
      let g1 := setExpanded g nodeId true
      let pr := addPlaceholders g1 node nodeId r0 r1 r2
      let g2 := applyScenarios pr.1 (pr.2.map (fun c => c.id)) ss
      let g3 := pr.2.foldl removeBatch g2
      setExpanded g3 nodeId false

/-- Graph states reachable from initialization by any sequence of
expansions, successful or failed-and-rolled-back. -/
inductive Reachable : Graph → Prop
  | init : Reachable initGraph
  | ok (g : Graph) (nodeId : ℕ) (r0 r1 r2 : ℝ) (ss : List GeneratedNodeData) :
      Reachable g → Reachable (expandNodeOk g nodeId r0 r1 r2 ss)
  | err (g : Graph) (nodeId : ℕ) (r0 r1 r2 : ℝ) (ss : List GeneratedNodeData) :
      Reachable g → Reachable (expandNodeErr g nodeId r0 r1 r2 ss)

/-- Age continuity fix of `generateChildScenariosStreaming` in
`openai.ts`: a scenario younger (in total weeks) than the parent is set to
the parent's age plus one week, rolling the week counter into a year past
week 51; any other scenario is passed through unchanged. -/
def fixScenarioAge (parentNode : Node) (scenario : GeneratedNodeData) : GeneratedNodeData :=
  let totalWeeksParent := parentNode.ageYears * 52 + parentNode.ageWeeks
  let totalWeeksScenario := scenario.ageYears * 52 + scenario.ageWeeks
  if totalWeeksScenario < totalWeeksParent then
    let s1 := { scenario with ageYears := parentNode.ageYears, ageWeeks := parentNode.ageWeeks + 1 }
    if s1.ageWeeks > 51 then { s1 with ageYears := s1.ageYears + 1, ageWeeks := 0 }
    else s1
  else scenario

/-! View structures used to state which node fields a physics step may
touch.  `staticView` collects everything `updatePhysics` never writes,
`growthView` the growth-animation fields, `edgeStaticView` the edge fields
other than the animated length. -/

/-- Fields of a node that `updatePhysics` never writes. -/
structure NodeStatic where
  id : ℕ
  title : String
  change : String
  ageYears : ℤ
  ageWeeks : ℤ
  location : String
  relationshipStatus : String
  livingSituation : String
  careerSituation : String
  monthlyIncome : ℝ
  hairColor : String
  hairStyle : String
  eyeColor : String
  facialHair : String
  glasses : String
  build : String
  parentId : Option ℕ
  targetWidth : ℝ
  targetHeight : ℝ
  expanded : Bool
  isGrowing : Bool
  isLoading : Bool
  generatedImageUrl : Option String

/-- Projection of a node onto its static fields. -/
def staticView (n : Node) : NodeStatic :=
  { id := n.id
    title := n.title
    change := n.change
    ageYears := n.ageYears
    ageWeeks := n.ageWeeks
    location := n.location
    relationshipStatus := n.relationshipStatus
    livingSituation := n.livingSituation
    careerSituation := n.careerSituation
    monthlyIncome := n.monthlyIncome
    hairColor := n.hairColor
    hairStyle := n.hairStyle
    eyeColor := n.eyeColor
    facialHair := n.facialHair
    glasses := n.glasses
    build := n.build
    parentId := n.parentId
    targetWidth := n.targetWidth
    targetHeight := n.targetHeight
    expanded := n.expanded
    isGrowing := n.isGrowing
    isLoading := n.isLoading
    generatedImageUrl := n.generatedImageUrl }

/-- Growth-animation fields of a node. -/
structure GrowthVals where
  growthProgress : ℝ
  currentWidth : ℝ
  currentHeight : ℝ
  targetWidth : ℝ
  targetHeight : ℝ
  isGrowing : Bool

/-- Projection of a node onto its growth-animation fields. -/
def growthView (n : Node) : GrowthVals :=
  { growthProgress := n.growthProgress
    currentWidth := n.currentWidth
    currentHeight := n.currentHeight
    targetWidth := n.targetWidth
    targetHeight := n.targetHeight
    isGrowing := n.isGrowing }

/-- Fields of an edge that `updatePhysics` never writes. -/
structure EdgeStatic where
  fromId : ℕ
  toId : ℕ
  targetLength : ℝ

/-- Projection of an edge onto its static fields. -/
def edgeStaticView (e : Edge) : EdgeStatic :=
  { fromId := e.fromId, toId := e.toId, targetLength := e.targetLength }

/-- Projections that cannot see the velocity of a node. -/
def VelOnly (f : Node → β) : Prop :=
  ∀ (n : Node) (a b : ℝ), f { n with vx := a, vy := b } = f n

theorem velOnly_staticView : VelOnly staticView := fun _ _ _ => rfl

theorem velOnly_growthView : VelOnly growthView := fun _ _ _ => rfl

/-! Generic list helper lemmas for the in-place-update model. -/

theorem length_updateFirst (p : α → Bool) (f : α → α) (l : List α) :
    (updateFirst p f l).length = l.length := by
  induction l with
  | nil => rfl
  | cons a as ih =>
    simp only [updateFirst]
    split <;> simp [ih]

theorem map_updateFirst (p : α → Bool) (g : α → α) (f : α → β)
    (h : ∀ a, f (g a) = f a) (l : List α) :
    (updateFirst p g l).map f = l.map f := by
  induction l with
  | nil => rfl
  | cons a as ih =>
    simp only [updateFirst]
    split <;> simp [ih, h]

theorem map_set_of_get (l : List α) (k : ℕ) (a : α) (f : α → β)
    (h : ∀ b, l.get? k = some b → f a = f b) :
    (l.set k a).map f = l.map f := by
  induction l generalizing k with
  | nil => rfl
  | cons x xs ih =>
    cases k with
    | zero =>
      simp only [List.set, List.map]
      rw [h x (by rfl)]
    | succ k =>
      simp only [List.set, List.map]
      rw [ih k (fun b hb => h b (by simpa using hb))]

theorem updateFirst_append_of_none (p : α → Bool) (f : α → α)
    (l₁ l₂ : List α) (h : ∀ a ∈ l₁, p a = false) :
    updateFirst p f (l₁ ++ l₂) = l₁ ++ updateFirst p f l₂ := by
  induction l₁ with
  | nil => rfl
  | cons a as ih =>
    simp only [List.cons_append, updateFirst, h a (by simp)]
    simp only [Bool.false_eq_true, if_false, List.cons.injEq, true_and]
    exact ih fun a ha => h a (by simp [ha])

theorem removeFirst_append_of_none (p : α → Bool)
    (l₁ l₂ : List α) (h : ∀ a ∈ l₁, p a = false) :
    removeFirst p (l₁ ++ l₂) = l₁ ++ removeFirst p l₂ := by
  induction l₁ with
  | nil => rfl
  | cons a as ih =>
    simp only [List.cons_append, removeFirst, h a (by simp)]
    simp only [Bool.false_eq_true, if_false, List.cons.injEq, true_and]
    exact ih fun a ha => h a (by simp [ha])

/-! Per-phase frame lemmas: the three force phases of `updatePhysics` only
write velocities. -/

theorem map_set_set_of_get (l : List α) (i j : ℕ) (a b a2 b2 : α) (f : α → β)
    (hA : l.get? i = some a) (hB : l.get? j = some b)
    (ha : f a2 = f a) (hb : f b2 = f b) :
    ((l.set i a2).set j b2).map f = l.map f := by
  have h1 : (l.set i a2).map f = l.map f :=
    map_set_of_get l i a2 f fun c hc => by
      rw [hA] at hc
      cases hc
      exact ha
  refine Eq.trans (map_set_of_get _ j b2 f ?_) h1
  intro c hc
  have h2 := congrArg (fun L => L.get? j) h1
  simp only [List.get?_map, hc, hB, Option.map_some'] at h2
  rw [hb]
  exact (Option.some.inj h2).symm

theorem map_repelPair (f : Node → β) (hf : VelOnly f) (l : List Node) (p : ℕ × ℕ) :
    (repelPair l p).map f = l.map f := by
  unfold repelPair
  cases hA : l.get? p.1 with
  | none => rfl
  | some nodeA =>
    cases hB : l.get? p.2 with
    | none => rfl
    | some nodeB =>
      simp only
      split
      · rfl
      · exact map_set_set_of_get l p.1 p.2 nodeA nodeB _ _ f hA hB
          (hf nodeA _ _) (hf nodeB _ _)

theorem map_springStep (f : Node → β) (hf : VelOnly f) (l : List Node) (e : Edge) :
    (springStep l e).map f = l.map f := by
  unfold springStep
  cases findNodeL l e.fromId with
  | none => rfl
  | some parent =>
    cases findNodeL l e.toId with
    | none => rfl
    | some child =>
      simp only
      split
      · rfl
      · rw [map_updateFirst _ _ _ (fun a => hf a _ _),
          map_updateFirst _ _ _ (fun a => hf a _ _)]

theorem map_gravityStep (f : Node → β) (hf : VelOnly f) (l : List Node) (k : ℕ) :
    (gravityStep l k).map f = l.map f := by
  unfold gravityStep
  split
  · rfl
  · split
    · rfl
    · split
      · rfl
      · dsimp only
        split
        · rename_i x1 node hk x2 pid hpid x3 parent hparent hmargin
          exact map_set_of_get l k _ f fun c hc => by
            rw [hk] at hc
            cases hc
            exact hf node _ _
        · rfl

theorem map_foldl_of_step {ι : Type} (step : List Node → ι → List Node)
    (f : Node → β) (h : ∀ l i, (step l i).map f = l.map f)
    (items : List ι) (l : List Node) :
    (items.foldl step l).map f = l.map f := by
  induction items generalizing l with
  | nil => rfl
  | cons i is ih => rw [List.foldl_cons, ih, h]

theorem staticView_growNode (t : ℝ) (n : Node) :
    staticView (growNode t n) = staticView n := by
  unfold growNode
  split <;> rfl

theorem staticView_integrateNode (n : Node) :
    staticView (integrateNode n) = staticView n := by
  unfold integrateNode
  split <;> rfl

theorem growthView_integrateNode (n : Node) :
    growthView (integrateNode n) = growthView n := by
  unfold integrateNode
  split <;> rfl

theorem edgeStaticView_growEdge (t : ℝ) (e : Edge) :
    edgeStaticView (growEdge t e) = edgeStaticView e := by
  unfold growEdge
  split <;> rfl

/-- Static node data survives one full `updatePhysics` step. -/
theorem updatePhysics_nodes_static (t : ℝ) (g : Graph) :
    (updatePhysics t g).nodes.map staticView = g.nodes.map staticView := by
  simp only [updatePhysics]
  split
  · rfl
  · rw [List.map_map,
      show staticView ∘ integrateNode = staticView from funext staticView_integrateNode,
      map_foldl_of_step _ _ (fun l k => map_gravityStep _ velOnly_staticView l k),
      map_foldl_of_step _ _ (fun l e => map_springStep _ velOnly_staticView l e),
      map_foldl_of_step _ _ (fun l p => map_repelPair _ velOnly_staticView l p),
      List.map_map,
      show staticView ∘ growNode t = staticView from funext (staticView_growNode t)]

/-- Growth fields after one full `updatePhysics` step are exactly what the
growth-advance phase `growNode` produces. -/
theorem updatePhysics_nodes_growth (t : ℝ) (g : Graph) :
    (updatePhysics t g).nodes.map growthView
      = g.nodes.map fun n => growthView (growNode t n) := by
  simp only [updatePhysics]
  split
  · next hlen => simp [List.length_eq_zero.mp hlen]
  · rw [List.map_map,
      show growthView ∘ integrateNode = growthView from funext growthView_integrateNode,
      map_foldl_of_step _ _ (fun l k => map_gravityStep _ velOnly_growthView l k),
      map_foldl_of_step _ _ (fun l e => map_springStep _ velOnly_growthView l e),
      map_foldl_of_step _ _ (fun l p => map_repelPair _ velOnly_growthView l p),
      List.map_map]
    rfl

/-- Static edge data survives one full `updatePhysics` step. -/
theorem updatePhysics_edges_static (t : ℝ) (g : Graph) :
    (updatePhysics t g).edges.map edgeStaticView = g.edges.map edgeStaticView := by
  simp only [updatePhysics]
  split
  · rfl
  · rw [List.map_map,
      show edgeStaticView ∘ growEdge t = edgeStaticView from funext (edgeStaticView_growEdge t)]

theorem updatePhysics_nodes_length (t : ℝ) (g : Graph) :
    (updatePhysics t g).nodes.length = g.nodes.length := by
  have h := congrArg List.length (updatePhysics_nodes_static t g)
  simpa using h

theorem updatePhysics_edges_length (t : ℝ) (g : Graph) :
    (updatePhysics t g).edges.length = g.edges.length := by
  have h := congrArg List.length (updatePhysics_edges_static t g)
  simpa using h

theorem updatePhysics_initDone (t : ℝ) (g : Graph) :
    (updatePhysics t g).initDone = g.initDone := by
  simp only [updatePhysics]
  split <;> rfl

/-- Every node present after a step is the output of the final
integration-and-pinning phase on some node. -/
theorem mem_updatePhysics_nodes (t : ℝ) (g : Graph) (n : Node)
    (h : n ∈ (updatePhysics t g).nodes) : ∃ m, n = integrateNode m := by
  simp only [updatePhysics] at h
  split at h
  · next hlen =>
    rw [List.length_eq_zero.mp hlen] at h
    exact absurd h (List.not_mem_nil n)
  · obtain ⟨m, _, hm⟩ := List.mem_map.mp h
    exact ⟨m, hm.symm⟩

theorem updatePhysics_get?_growth (t : ℝ) (g : Graph) (k : ℕ) :
    ((updatePhysics t g).nodes.get? k).map growthView
      = ((g.nodes.get? k).map fun n => growthView (growNode t n)) := by
  have h := congrArg (fun L => L.get? k) (updatePhysics_nodes_growth t g)
  simpa [List.get?_map] using h

theorem updatePhysics_map_isGrowing (t : ℝ) (g : Graph) :
    ((updatePhysics t g).nodes.map fun n => n.isGrowing)
      = g.nodes.map fun n => n.isGrowing := by
  have h := congrArg (List.map NodeStatic.isGrowing) (updatePhysics_nodes_static t g)
  rw [List.map_map, List.map_map] at h
  exact h

theorem integrateNode_parentId (n : Node) :
    (integrateNode n).parentId = n.parentId := by
  unfold integrateNode
  split <;> rfl

theorem integrateNode_root_pinned (m : Node) (hm : m.parentId = none) :
    (integrateNode m).x = 0 ∧ (integrateNode m).y = 0 ∧
    (integrateNode m).vx = 0 ∧ (integrateNode m).vy = 0 := by
  simp [integrateNode, hm]

/-- Core algebra of the velocity clamp in the integration phase: after the
conditional rescale toward the cap `c` the speed is at most `c`. -/
theorem clamp_speed_le (a b c : ℝ) (hc : 0 ≤ c) :
    Real.sqrt ((if Real.sqrt (a * a + b * b) > c
        then a / Real.sqrt (a * a + b * b) * c else a) ^ 2
      + (if Real.sqrt (a * a + b * b) > c
        then b / Real.sqrt (a * a + b * b) * c else b) ^ 2) ≤ c := by
  have hab : (0:ℝ) ≤ a * a + b * b := by nlinarith [sq_nonneg a, sq_nonneg b]
  by_cases h : Real.sqrt (a * a + b * b) > c
  · rw [if_pos h, if_pos h]
    have hs0 : 0 < Real.sqrt (a * a + b * b) := lt_of_le_of_lt hc h
    have hsq : Real.sqrt (a * a + b * b) ^ 2 = a * a + b * b := Real.sq_sqrt hab
    have hab0 : 0 < a * a + b * b := Real.sqrt_pos.mp hs0
    have hval : (a / Real.sqrt (a * a + b * b) * c) ^ 2
        + (b / Real.sqrt (a * a + b * b) * c) ^ 2 = c ^ 2 := by
      have hexp : (a / Real.sqrt (a * a + b * b) * c) ^ 2
          + (b / Real.sqrt (a * a + b * b) * c) ^ 2
          = (a * a + b * b) * c ^ 2 / Real.sqrt (a * a + b * b) ^ 2 := by
        ring
      rw [hexp, hsq, mul_div_assoc, mul_comm, div_mul_cancel₀ _ (ne_of_gt hab0)]
    rw [hval, Real.sqrt_sq hc]
  · rw [if_neg h, if_neg h]
    push_neg at h
    have hrw : a ^ 2 + b ^ 2 = a * a + b * b := by ring
    rw [hrw]
    exact h

theorem integrateNode_speed (m : Node) :
    Real.sqrt ((integrateNode m).vx ^ 2 + (integrateNode m).vy ^ 2)
      ≤ physicsConfig.maxVelocity := by
  have hc : (0:ℝ) ≤ physicsConfig.maxVelocity := by norm_num [physicsConfig]
  by_cases hm : m.parentId = none
  · simp [integrateNode, hm]
    exact hc
  · simp only [integrateNode, hm, if_neg, if_false]
    exact clamp_speed_le (m.vx * physicsConfig.friction)
      (m.vy * physicsConfig.friction) physicsConfig.maxVelocity hc

/-! Concrete single-node graph used as an evaluation probe by several
witnesses: a fully-grown parentless node resting at the origin, a fixed
point of the simulation step. -/

/-- Fully grown resting root-like node. -/
def probeNode : Node :=
  { id := 0
    title := ""
    change := ""
    ageYears := 0
    ageWeeks := 0
    location := ""
    relationshipStatus := ""
    livingSituation := ""
    careerSituation := ""
    monthlyIncome := 0
    hairColor := ""
    hairStyle := ""
    eyeColor := ""
    facialHair := ""
    glasses := ""
    build := ""
    parentId := none
    x := 0
    y := 0
    vx := 0
    vy := 0
    targetWidth := 270
    targetHeight := 160
    currentWidth := 270
    currentHeight := 160
    expanded := false
    isGrowing := false
    isLoading := false
    growthProgress := 1
    generatedImageUrl := none }

/-- Single-node probe graph. -/
def probeGraph : Graph :=
  { nodes := [probeNode], edges := [], initDone := false }

theorem updatePhysics_probe (t : ℝ) : updatePhysics t probeGraph = probeGraph := by
  simp [updatePhysics, probeGraph, probeNode, growNode, allPairs, repelPair,
    springStep, gravityStep, integrateNode, findNodeL, List.range_succ]

/-- C1: after every single `updatePhysics` call, every node with a null
`parentId` has position `(0,0)` and velocity `(0,0)`, whatever forces were
accumulated during the step. -/
theorem updatePhysics_root_pinned (g : Graph) (t : ℝ) (n : Node)
    (hmem : n ∈ (updatePhysics t g).nodes) (hroot : n.parentId = none) :
    n.x = 0 ∧ n.y = 0 ∧ n.vx = 0 ∧ n.vy = 0 := by
  obtain ⟨m, rfl⟩ := mem_updatePhysics_nodes t g n hmem
  rw [integrateNode_parentId] at hroot
  exact integrateNode_root_pinned m hroot

theorem updatePhysics_root_pinned_witness :
    probeNode ∈ (updatePhysics 1 probeGraph).nodes ∧ probeNode.parentId = none ∧
    (probeNode.x = 0 ∧ probeNode.y = 0 ∧ probeNode.vx = 0 ∧ probeNode.vy = 0) := by
  have hmem : probeNode ∈ (updatePhysics 1 probeGraph).nodes := by
    rw [updatePhysics_probe]
    simp [probeGraph]
  exact ⟨hmem, rfl, updatePhysics_root_pinned probeGraph 1 probeNode hmem rfl⟩

/-- C6: after every `updatePhysics` step every node's speed is at most
`maxVelocity` (so in particular at most `maxVelocity` plus any small
epsilon): the step damps the velocity by `friction` and then, as its last
velocity write, rescales the vector onto the cap preserving direction. -/
theorem updatePhysics_speed_clamped (g : Graph) (t : ℝ) (n : Node)
    (hmem : n ∈ (updatePhysics t g).nodes) :
    Real.sqrt (n.vx ^ 2 + n.vy ^ 2) ≤ physicsConfig.maxVelocity := by
  obtain ⟨m, rfl⟩ := mem_updatePhysics_nodes t g n hmem
  exact integrateNode_speed m

theorem updatePhysics_speed_clamped_witness :
    probeNode ∈ (updatePhysics 1 probeGraph).nodes ∧
    Real.sqrt (probeNode.vx ^ 2 + probeNode.vy ^ 2) ≤ physicsConfig.maxVelocity := by
  have hmem : probeNode ∈ (updatePhysics 1 probeGraph).nodes := by
    rw [updatePhysics_probe]
    simp [probeGraph]
  exact ⟨hmem, updatePhysics_speed_clamped probeGraph 1 probeNode hmem⟩

/-- C7: a simulation step on a graph with an empty node collection is a
no-op: the graph, with its node and edge collections, is returned
unchanged (and, the model being a total function, no exception arises). -/
theorem updatePhysics_empty_noop (t : ℝ) (g : Graph) (h : g.nodes = []) :
    updatePhysics t g = g := by
  simp [updatePhysics, h]

theorem updatePhysics_empty_noop_witness :
    (Graph.mk [] [] false).nodes = [] ∧
    updatePhysics 1 (Graph.mk [] [] false) = Graph.mk [] [] false :=
  ⟨rfl, updatePhysics_empty_noop 1 (Graph.mk [] [] false) rfl⟩

/-- C10: `updatePhysics` is a pure relaxation step: it adds or removes no
node or edge, leaves every static node field (`id`, `parentId`, the domain
payload, `expanded`, `isGrowing`, `isLoading`, `targetWidth`,
`targetHeight`, `generatedImageUrl`) and every static edge field
(`fromId`, `toId`, `targetLength`) unchanged, and only the kinematic and
growth-animation fields may change. -/
theorem updatePhysics_frame (t : ℝ) (g : Graph) :
    (updatePhysics t g).nodes.length = g.nodes.length ∧
    (updatePhysics t g).edges.length = g.edges.length ∧
    (updatePhysics t g).nodes.map staticView = g.nodes.map staticView ∧
    (updatePhysics t g).edges.map edgeStaticView = g.edges.map edgeStaticView ∧
    (updatePhysics t g).initDone = g.initDone :=
  ⟨updatePhysics_nodes_length t g, updatePhysics_edges_length t g,
    updatePhysics_nodes_static t g, updatePhysics_edges_static t g,
    updatePhysics_initDone t g⟩

/-! Growth-animation invariants (claims about `growNode`). -/

/-- Size-animation invariant that `createNode` establishes and every
simulation step preserves. -/
def growthInv (n : Node) : Prop :=
  0 ≤ n.growthProgress ∧ n.growthProgress ≤ 1 ∧
  n.currentWidth = n.targetWidth * n.growthProgress ∧
  n.currentHeight = n.targetHeight * n.growthProgress ∧
  0 ≤ n.targetWidth ∧ 0 ≤ n.targetHeight

theorem growNode_of_progress_one (t : ℝ) (n : Node) (h : n.growthProgress = 1) :
    growNode t n = n := by
  unfold growNode
  rw [if_neg]
  simp [h]

theorem growNode_progress_clamped (t : ℝ) (n : Node) (hg : n.isGrowing = true)
    (hlt : n.growthProgress < 1) (hone : 1 ≤ n.growthProgress + t / GROWTH_DURATION) :
    (growNode t n).growthProgress = 1 := by
  unfold growNode
  rw [if_pos ⟨hg, hlt⟩]
  dsimp only
  rw [if_pos (ge_iff_le.mpr hone)]

theorem growNode_spec (t : ℝ) (n : Node) (ht : 0 ≤ t) (h : growthInv n) :
    growthInv (growNode t n) ∧
    n.growthProgress ≤ (growNode t n).growthProgress ∧
    n.currentWidth ≤ (growNode t n).currentWidth ∧
    n.currentHeight ≤ (growNode t n).currentHeight := by
  obtain ⟨h0, h1, hw, hh, htw, hth⟩ := h
  have htd : 0 ≤ t / GROWTH_DURATION := div_nonneg ht (by norm_num [GROWTH_DURATION])
  unfold growNode
  split
  · next hcond =>
    dsimp only
    by_cases hge : n.growthProgress + t / GROWTH_DURATION ≥ 1
    · rw [if_pos hge]
      refine ⟨⟨zero_le_one, le_refl 1, rfl, rfl, htw, hth⟩, h1, ?_, ?_⟩
      · rw [hw]
        exact mul_le_mul_of_nonneg_left h1 htw
      · rw [hh]
        exact mul_le_mul_of_nonneg_left h1 hth
    · rw [if_neg hge]
      push_neg at hge
      have hmono : n.growthProgress ≤ n.growthProgress + t / GROWTH_DURATION :=
        le_add_of_nonneg_right htd
      refine ⟨⟨add_nonneg h0 htd, le_of_lt hge, rfl, rfl, htw, hth⟩, hmono, ?_, ?_⟩
      · rw [hw]
        exact mul_le_mul_of_nonneg_left hmono htw
      · rw [hh]
        exact mul_le_mul_of_nonneg_left hmono hth
  · exact ⟨⟨h0, h1, hw, hh, htw, hth⟩, le_refl _, le_refl _, le_refl _⟩

theorem createNode_growthInv (g : Graph) (rand : ℝ) (id : ℕ) (tl ch : String)
    (ay aw : ℤ) (loc rs ls cs : String) (mi : ℝ) (hc hs ec fh gl bu : String)
    (pid : Option ℕ) :
    growthInv (createNode g rand id tl ch ay aw loc rs ls cs mi hc hs ec fh gl bu pid) := by
  cases pid <;> norm_num [createNode, growthInv]

/-- C5: the size animation is monotone and capped.  `createNode`
establishes the invariant `currentWidth = targetWidth * growthProgress`
(and likewise for the height) with progress in `[0,1]`; a step with a
non-negative wall-clock delta preserves it, keeps `currentWidth ≤
targetWidth` and `currentHeight ≤ targetHeight`, never decreases either
size, and once `growthProgress` has reached `1` both sizes stay exactly at
their targets (so the claim holds along every sequence of steps). -/
theorem updatePhysics_size_growth (g : Graph) (t : ℝ) (k : ℕ) (pre post : Node)
    (hdt : 0 ≤ t) (hpre : g.nodes.get? k = some pre)
    (hpost : (updatePhysics t g).nodes.get? k = some post) (hinv : growthInv pre) :
    growthInv post ∧
    post.currentWidth ≤ post.targetWidth ∧
    post.currentHeight ≤ post.targetHeight ∧
    pre.currentWidth ≤ post.currentWidth ∧
    pre.currentHeight ≤ post.currentHeight ∧
    (pre.growthProgress = 1 →
      post.growthProgress = 1 ∧ post.currentWidth = post.targetWidth ∧
      post.currentHeight = post.targetHeight) ∧
    (∀ (g' : Graph) (rand : ℝ) (id : ℕ) (tl ch : String) (ay aw : ℤ)
      (loc rs ls cs : String) (mi : ℝ) (hc hs ec fh gl bu : String)
      (pid : Option ℕ),
      growthInv (createNode g' rand id tl ch ay aw loc rs ls cs mi hc hs ec fh gl bu pid)) := by
  have hv := updatePhysics_get?_growth t g k
  rw [hpre, hpost] at hv
  simp only [Option.map_some', Option.some_inj] at hv
  have ep : post.growthProgress = (growNode t pre).growthProgress :=
    congrArg GrowthVals.growthProgress hv
  have ew : post.currentWidth = (growNode t pre).currentWidth :=
    congrArg GrowthVals.currentWidth hv
  have eh : post.currentHeight = (growNode t pre).currentHeight :=
    congrArg GrowthVals.currentHeight hv
  have etw : post.targetWidth = (growNode t pre).targetWidth :=
    congrArg GrowthVals.targetWidth hv
  have eth : post.targetHeight = (growNode t pre).targetHeight :=
    congrArg GrowthVals.targetHeight hv
  obtain ⟨hI, hmp, hmw, hmh⟩ := growNode_spec t pre hdt hinv
  obtain ⟨i0, i1, iw, ih, itw, ith⟩ := hI
  refine ⟨⟨?_, ?_, ?_, ?_, ?_, ?_⟩, ?_, ?_, ?_, ?_, ?_,
    fun g' rand id tl ch ay aw loc rs ls cs mi hc hs ec fh gl bu pid =>
      createNode_growthInv g' rand id tl ch ay aw loc rs ls cs mi hc hs ec fh gl bu pid⟩
  · rw [ep]; exact i0
  · rw [ep]; exact i1
  · rw [ew, ep, etw]; exact iw
  · rw [eh, ep, eth]; exact ih
  · rw [etw]; exact itw
  · rw [eth]; exact ith
  · rw [ew, etw, iw]
    calc (growNode t pre).targetWidth * (growNode t pre).growthProgress
        ≤ (growNode t pre).targetWidth * 1 := mul_le_mul_of_nonneg_left i1 itw
    _ = (growNode t pre).targetWidth := mul_one _
  · rw [eh, eth, ih]
    calc (growNode t pre).targetHeight * (growNode t pre).growthProgress
        ≤ (growNode t pre).targetHeight * 1 := mul_le_mul_of_nonneg_left i1 ith
    _ = (growNode t pre).targetHeight := mul_one _
  · rw [ew]; exact hmw
  · rw [eh]; exact hmh
  · intro hone
    have hid : growNode t pre = pre := growNode_of_progress_one t pre hone
    obtain ⟨p0, p1, pw, ph, ptw, pth⟩ := hinv
    refine ⟨?_, ?_, ?_⟩
    · rw [ep, hid]; exact hone
    · rw [ew, etw, hid, pw, hone, mul_one]
    · rw [eh, eth, hid, ph, hone, mul_one]

theorem updatePhysics_size_growth_witness :
    (0:ℝ) ≤ 1 ∧ probeGraph.nodes.get? 0 = some probeNode ∧
    (updatePhysics 1 probeGraph).nodes.get? 0 = some probeNode ∧ growthInv probeNode ∧
    (growthInv probeNode ∧
      probeNode.currentWidth ≤ probeNode.targetWidth ∧
      probeNode.currentHeight ≤ probeNode.targetHeight ∧
      probeNode.currentWidth ≤ probeNode.currentWidth ∧
      probeNode.currentHeight ≤ probeNode.currentHeight ∧
      (probeNode.growthProgress = 1 →
        probeNode.growthProgress = 1 ∧ probeNode.currentWidth = probeNode.targetWidth ∧
        probeNode.currentHeight = probeNode.targetHeight)) := by
  have hpost : (updatePhysics 1 probeGraph).nodes.get? 0 = some probeNode := by
    rw [updatePhysics_probe]
    rfl
  have hinv : growthInv probeNode := by
    norm_num [growthInv, probeNode]
  have h := updatePhysics_size_growth probeGraph 1 0 probeNode probeNode
    zero_le_one rfl hpost hinv
  exact ⟨zero_le_one, rfl, hpost, hinv,
    ⟨h.1, h.2.1, h.2.2.1, h.2.2.2.1, h.2.2.2.2.1, h.2.2.2.2.2.1⟩⟩

/-! Claim C2 concerns the `isGrowing` flag.  The code never clears the
flag inside `updatePhysics` (only the content-arrival callback of
`expandNode` does), so the claim as stated fails; the probe below shows a
node whose progress reaches 1 during a step while its flag stays `true`. -/

/-- Growing variant of the probe node (progress 0, flag set). -/
def growingNode : Node :=
  { probeNode with
    isGrowing := true
    growthProgress := 0
    currentWidth := 0
    currentHeight := 0 }

/-- Single-node graph whose node is mid-growth. -/
def growingGraph : Graph :=
  { nodes := [growingNode], edges := [], initDone := false }

/-- C2 counterexample: at `deltaTime = 2` seconds the probe node's
`growthProgress` reaches 1 during the step, yet `isGrowing` is still
`true` immediately after the step — `updatePhysics` never clears it. -/
theorem growth_flag_not_cleared :
    growingNode.isGrowing = true ∧ growingNode.growthProgress = 0 ∧
    ((updatePhysics 2 growingGraph).nodes.map fun n => (n.growthProgress, n.isGrowing))
      = [(1, true)] := by
  refine ⟨rfl, rfl, ?_⟩
  norm_num [updatePhysics, growingGraph, growingNode, probeNode, growNode, allPairs,
    repelPair, springStep, gravityStep, integrateNode, findNodeL, GROWTH_DURATION,
    List.range_succ]

/-- C2 (amended): when a node's `growthProgress` reaches 1 during a step
it is clamped to exactly 1 and stays at 1 in every later step (a node
never regrows), but `updatePhysics` leaves `isGrowing` entirely unchanged
rather than setting it to false — the flag is cleared only by the
content-arrival callback in `App.tsx`. -/
theorem updatePhysics_growth_flag (g : Graph) (t : ℝ) (k : ℕ) :
    ((updatePhysics t g).nodes.map fun n => n.isGrowing)
      = (g.nodes.map fun n => n.isGrowing) ∧
    (((g.nodes.get? k).map fun n => n.growthProgress) = some 1 →
      (((updatePhysics t g).nodes.get? k).map fun n => n.growthProgress) = some 1) ∧
    (∀ pre : Node, g.nodes.get? k = some pre → pre.isGrowing = true →
      pre.growthProgress < 1 → 1 ≤ pre.growthProgress + t / GROWTH_DURATION →
      (((updatePhysics t g).nodes.get? k).map fun n => n.growthProgress) = some 1) := by
  refine ⟨updatePhysics_map_isGrowing t g, ?_, ?_⟩
  · intro h
    cases hpre : g.nodes.get? k with
    | none => rw [hpre] at h; exact absurd h (by simp)
    | some pre =>
      rw [hpre] at h
      simp only [Option.map_some'] at h
      have hone : pre.growthProgress = 1 := Option.some.inj h
      have hv := updatePhysics_get?_growth t g k
      rw [hpre] at hv
      cases hq : (updatePhysics t g).nodes.get? k with
      | none => rw [hq] at hv; exact absurd hv (by simp)
      | some q =>
        rw [hq] at hv
        simp only [Option.map_some', Option.some_inj] at hv
        have := congrArg GrowthVals.growthProgress hv
        rw [growNode_of_progress_one t pre hone] at this
        simp only [Option.map_some']
        rw [show q.growthProgress = pre.growthProgress from this, hone]
  · intro pre hpre hg hlt honew
    have hv := updatePhysics_get?_growth t g k
    rw [hpre] at hv
    cases hq : (updatePhysics t g).nodes.get? k with
    | none => rw [hq] at hv; exact absurd hv (by simp)
    | some q =>
      rw [hq] at hv
      simp only [Option.map_some', Option.some_inj] at hv
      have := congrArg GrowthVals.growthProgress hv
      simp only [Option.map_some']
      rw [show q.growthProgress = (growNode t pre).growthProgress from this,
        growNode_progress_clamped t pre hg hlt honew]

theorem updatePhysics_growth_flag_witness :
    ((updatePhysics 2 growingGraph).nodes.map fun n => n.isGrowing)
      = (growingGraph.nodes.map fun n => n.isGrowing) ∧
    (growingGraph.nodes.get? 0 = some growingNode ∧ growingNode.isGrowing = true ∧
      growingNode.growthProgress < 1 ∧
      1 ≤ growingNode.growthProgress + 2 / GROWTH_DURATION) ∧
    (((updatePhysics 2 growingGraph).nodes.get? 0).map fun n => n.growthProgress)
      = some 1 := by
  have h1 : growingNode.growthProgress < 1 := by
    norm_num [growingNode, probeNode]
  have h2 : (1:ℝ) ≤ growingNode.growthProgress + 2 / GROWTH_DURATION := by
    norm_num [growingNode, probeNode, GROWTH_DURATION]
  exact ⟨(updatePhysics_growth_flag growingGraph 2 0).1, ⟨rfl, rfl, h1, h2⟩,
    (updatePhysics_growth_flag growingGraph 2 0).2.2 growingNode rfl rfl h1 h2⟩

/-! Claim C3 concerns the seeding of a freshly created child's position.
The source offsets the child by `(Math.random() - 0.5) * 100` in x and by
the hardcoded constant `-150` in y; the configured spring rest length
`physicsConfig.springLength = 520` plays no role in the seeding. -/

/-- Concrete child of the root, created with the middle random draw. -/
def childProbe : Node :=
  createNode initGraph (1/2) 1 ("") ("") 0 0 ("") ("") ("") ("") 0
    ("") ("") ("") ("") ("") ("") (some 0)

/-- C3 counterexample: for a child of the root created at random draw
`1/2`, the vertical offset from the parent is the fixed `150` and the
horizontal offset `0`; neither axis offset equals the configured rest
length `springLength = 520` in either direction. -/
theorem child_seed_not_springLength :
    childProbe.x = rootNode.x ∧ childProbe.y = rootNode.y - 150 ∧
    physicsConfig.springLength = 520 ∧
    rootNode.y - childProbe.y ≠ physicsConfig.springLength ∧
    childProbe.y - rootNode.y ≠ physicsConfig.springLength ∧
    childProbe.x - rootNode.x ≠ physicsConfig.springLength ∧
    rootNode.x - childProbe.x ≠ physicsConfig.springLength := by
  have hfind : findNode initGraph 0 = some rootNode := by
    simp [initGraph, addNode, findNode, findNodeL, rootNode, createNode]
  refine ⟨?_, ?_, rfl, ?_, ?_, ?_, ?_⟩ <;>
    norm_num [childProbe, createNode, hfind, rootNode, physicsConfig]

/-- C3 (amended): a child created with a found parent is seeded at
`parent.x + (rand - 0.5) * 100` — a random offset of magnitude at most 50
in x — and at `parent.y - 150`, a hardcoded offset of 150 in y; the
vertical offset is the constant 150 and not the configured
`physicsConfig.springLength`. -/
theorem createNode_seed_near_parent (g : Graph) (rand : ℝ) (id : ℕ)
    (tl ch : String) (ay aw : ℤ) (loc rs ls cs : String) (mi : ℝ)
    (hc hs ec fh gl bu : String) (pid : ℕ) (parent : Node)
    (hfind : findNode g pid = some parent) (hr0 : 0 ≤ rand) (hr1 : rand ≤ 1) :
    (createNode g rand id tl ch ay aw loc rs ls cs mi hc hs ec fh gl bu (some pid)).x
      = parent.x + (rand - 0.5) * 100 ∧
    (createNode g rand id tl ch ay aw loc rs ls cs mi hc hs ec fh gl bu (some pid)).y
      = parent.y - 150 ∧
    |(createNode g rand id tl ch ay aw loc rs ls cs mi hc hs ec fh gl bu (some pid)).x
      - parent.x| ≤ 50 := by
  refine ⟨by simp [createNode, hfind], by simp [createNode, hfind], ?_⟩
  have hx : (createNode g rand id tl ch ay aw loc rs ls cs mi hc hs ec fh gl bu
      (some pid)).x = parent.x + (rand - 0.5) * 100 := by
    simp [createNode, hfind]
  rw [hx]
  have : parent.x + (rand - 0.5) * 100 - parent.x = (rand - 0.5) * 100 := by ring
  rw [this, abs_mul, abs_of_nonneg (by norm_num : (0:ℝ) ≤ 100)]
  have habs : |rand - 0.5| ≤ 0.5 := abs_le.mpr ⟨by linarith, by linarith⟩
  nlinarith [habs]

theorem createNode_seed_near_parent_witness :
    findNode initGraph 0 = some rootNode ∧ (0:ℝ) ≤ 1/2 ∧ (1:ℝ)/2 ≤ 1 ∧
    (childProbe.x = rootNode.x + (1/2 - 0.5) * 100 ∧
      childProbe.y = rootNode.y - 150 ∧
      |childProbe.x - rootNode.x| ≤ 50) := by
  have hfind : findNode initGraph 0 = some rootNode := by
    simp [initGraph, addNode, findNode, findNodeL, rootNode, createNode]
  exact ⟨hfind, by norm_num, by norm_num,
    createNode_seed_near_parent initGraph (1/2) 1 ("") ("") 0 0 ("") ("") ("") ("") 0
      ("") ("") ("") ("") ("") ("") 0 rootNode hfind (by norm_num) (by norm_num)⟩

/-- C8: a generated scenario younger in total weeks than its parent is
corrected to exactly the parent's age plus one week, with the week counter
rolled into an extra year at 52 weeks so that it stays in `0..51`; a
scenario at least as old as the parent is accepted unchanged. -/
theorem fixScenarioAge_spec (parent : Node) (s : GeneratedNodeData)
    (h0 : 0 ≤ parent.ageWeeks) (h1 : parent.ageWeeks ≤ 51) :
    (s.ageYears * 52 + s.ageWeeks < parent.ageYears * 52 + parent.ageWeeks →
      (fixScenarioAge parent s).ageYears * 52 + (fixScenarioAge parent s).ageWeeks
          = parent.ageYears * 52 + parent.ageWeeks + 1 ∧
        0 ≤ (fixScenarioAge parent s).ageWeeks ∧
        (fixScenarioAge parent s).ageWeeks ≤ 51) ∧
    (parent.ageYears * 52 + parent.ageWeeks ≤ s.ageYears * 52 + s.ageWeeks →
      fixScenarioAge parent s = s) := by
  constructor
  · intro hlt
    unfold fixScenarioAge
    rw [if_pos hlt]
    dsimp only
    split
    · next hw =>
      refine ⟨?_, ?_, ?_⟩ <;> dsimp only <;> omega
    · next hw =>
      refine ⟨?_, ?_, ?_⟩ <;> dsimp only <;> omega
  · intro hge
    unfold fixScenarioAge
    rw [if_neg (not_lt.mpr hge)]

/-- Concrete too-young scenario record used to exercise the age fix. -/
def scenarioProbe : GeneratedNodeData :=
  { title := ""
    change := ""
    ageYears := 0
    ageWeeks := 0
    location := ""
    relationshipStatus := ""
    livingSituation := ""
    careerSituation := ""
    monthlyIncome := 0 }

theorem fixScenarioAge_spec_witness :
    (0 ≤ rootNode.ageWeeks ∧ rootNode.ageWeeks ≤ 51) ∧
    scenarioProbe.ageYears * 52 + scenarioProbe.ageWeeks
      < rootNode.ageYears * 52 + rootNode.ageWeeks ∧
    ((fixScenarioAge rootNode scenarioProbe).ageYears * 52
        + (fixScenarioAge rootNode scenarioProbe).ageWeeks
      = rootNode.ageYears * 52 + rootNode.ageWeeks + 1 ∧
      0 ≤ (fixScenarioAge rootNode scenarioProbe).ageWeeks ∧
      (fixScenarioAge rootNode scenarioProbe).ageWeeks ≤ 51) := by
  have h0 : 0 ≤ rootNode.ageWeeks := by norm_num [rootNode, createNode]
  have h1 : rootNode.ageWeeks ≤ 51 := by norm_num [rootNode, createNode]
  have hlt : scenarioProbe.ageYears * 52 + scenarioProbe.ageWeeks
      < rootNode.ageYears * 52 + rootNode.ageWeeks := by
    norm_num [rootNode, createNode, scenarioProbe]
  exact ⟨⟨h0, h1⟩, hlt, (fixScenarioAge_spec rootNode scenarioProbe h0 h1).1 hlt⟩

/-! Machinery for the expansion protocol: effects of placeholder
creation, the streaming callbacks, and the rollback of a failed
expansion. -/

theorem graph_eq (G : Graph) (ns : List Node) (es : List Edge) (b : Bool)
    (h1 : G.nodes = ns) (h2 : G.edges = es) (h3 : G.initDone = b) :
    G = ⟨ns, es, b⟩ := by
  cases G
  simp_all

theorem makePlaceholder_id (g : Graph) (r : ℝ) (node : Node) (nodeId : ℕ) :
    (makePlaceholder g r node nodeId).id = g.nodes.length := rfl

theorem makePlaceholder_parentId (g : Graph) (r : ℝ) (node : Node) (nodeId : ℕ) :
    (makePlaceholder g r node nodeId).parentId = some nodeId := rfl

theorem addNode_of_parent (g : Graph) (c : Node) (pid : ℕ)
    (h : c.parentId = some pid) :
    addNode g c = ⟨g.nodes ++ [c], g.edges ++ [createEdge pid c.id], g.initDone⟩ := by
  simp [addNode, h]

/-- Shape of the placeholder-creation phase of `expandNode`: three nodes
with ids `length`, `length+1`, `length+2` are appended together with their
three inbound edges. -/
theorem addPlaceholders_spec (h : Graph) (node : Node) (nodeId : ℕ) (r0 r1 r2 : ℝ) :
    ∃ c0 c1 c2 : Node,
      addPlaceholders h node nodeId r0 r1 r2
        = (⟨h.nodes ++ [c0, c1, c2],
            h.edges ++ [createEdge nodeId h.nodes.length,
              createEdge nodeId (h.nodes.length + 1),
              createEdge nodeId (h.nodes.length + 2)], h.initDone⟩, [c0, c1, c2]) ∧
      c0.id = h.nodes.length ∧ c1.id = h.nodes.length + 1 ∧
      c2.id = h.nodes.length + 2 := by
  obtain ⟨c0, hc0⟩ : ∃ c0, makePlaceholder h r0 node nodeId = c0 := ⟨_, rfl⟩
  obtain ⟨c1, hc1⟩ : ∃ c1, makePlaceholder (addNode h c0) r1 node nodeId = c1 := ⟨_, rfl⟩
  obtain ⟨c2, hc2⟩ : ∃ c2,
      makePlaceholder (addNode (addNode h c0) c1) r2 node nodeId = c2 := ⟨_, rfl⟩
  have hid0 : c0.id = h.nodes.length := by rw [← hc0]; rfl
  have hpar0 : c0.parentId = some nodeId := by rw [← hc0]; rfl
  have hA : addNode h c0
      = ⟨h.nodes ++ [c0], h.edges ++ [createEdge nodeId h.nodes.length],
        h.initDone⟩ := by
    rw [addNode_of_parent h c0 nodeId hpar0, hid0]
  have hid1 : c1.id = h.nodes.length + 1 := by
    rw [← hc1, makePlaceholder_id, hA]
    simp
  have hpar1 : c1.parentId = some nodeId := by rw [← hc1]; rfl
  have hB : addNode (addNode h c0) c1
      = ⟨h.nodes ++ [c0, c1],
        h.edges ++ [createEdge nodeId h.nodes.length,
          createEdge nodeId (h.nodes.length + 1)], h.initDone⟩ := by
    rw [addNode_of_parent _ c1 nodeId hpar1, hid1, hA]
    simp
  have hid2 : c2.id = h.nodes.length + 2 := by
    rw [← hc2, makePlaceholder_id, hB]
    simp
  have hpar2 : c2.parentId = some nodeId := by rw [← hc2]; rfl
  have hC : addNode (addNode (addNode h c0) c1) c2
      = ⟨h.nodes ++ [c0, c1, c2],
        h.edges ++ [createEdge nodeId h.nodes.length,
          createEdge nodeId (h.nodes.length + 1),
          createEdge nodeId (h.nodes.length + 2)], h.initDone⟩ := by
    rw [addNode_of_parent _ c2 nodeId hpar2, hid2, hB]
    simp
  refine ⟨c0, c1, c2, ?_, hid0, hid1, hid2⟩
  show (addNode (addNode (addNode h (makePlaceholder h r0 node nodeId))
      (makePlaceholder (addNode h (makePlaceholder h r0 node nodeId)) r1 node nodeId))
      (makePlaceholder (addNode (addNode h (makePlaceholder h r0 node nodeId))
        (makePlaceholder (addNode h (makePlaceholder h r0 node nodeId)) r1 node nodeId))
        r2 node nodeId),
    [makePlaceholder h r0 node nodeId,
      makePlaceholder (addNode h (makePlaceholder h r0 node nodeId)) r1 node nodeId,
      makePlaceholder (addNode (addNode h (makePlaceholder h r0 node nodeId))
        (makePlaceholder (addNode h (makePlaceholder h r0 node nodeId)) r1 node nodeId))
        r2 node nodeId]) = _
  rw [hc0, hc1, hc2, hC]

theorem applyScenarios_nil_ids (g : Graph) (ss : List GeneratedNodeData) :
    applyScenarios g [] ss = g := by
  simp [applyScenarios]

theorem applyScenarios_nil_ss (g : Graph) (ids : List ℕ) :
    applyScenarios g ids [] = g := by
  simp [applyScenarios]

theorem applyScenarios_cons (g : Graph) (i : ℕ) (ids : List ℕ)
    (s : GeneratedNodeData) (ss : List GeneratedNodeData) :
    applyScenarios g (i :: ids) (s :: ss)
      = applyScenarios (applyScenario g i s) ids ss := by
  simp [applyScenarios]

theorem applyScenarios_edges (g : Graph) (ids : List ℕ)
    (ss : List GeneratedNodeData) : (applyScenarios g ids ss).edges = g.edges := by
  induction ids generalizing g ss with
  | nil => rw [applyScenarios_nil_ids]
  | cons i ids ih =>
    cases ss with
    | nil => rw [applyScenarios_nil_ss]
    | cons s ss => rw [applyScenarios_cons, ih]; rfl

theorem applyScenarios_initDone (g : Graph) (ids : List ℕ)
    (ss : List GeneratedNodeData) :
    (applyScenarios g ids ss).initDone = g.initDone := by
  induction ids generalizing g ss with
  | nil => rw [applyScenarios_nil_ids]
  | cons i ids ih =>
    cases ss with
    | nil => rw [applyScenarios_nil_ss]
    | cons s ss => rw [applyScenarios_cons, ih]; rfl

theorem applyScenarios_map_id (g : Graph) (ids : List ℕ)
    (ss : List GeneratedNodeData) :
    (applyScenarios g ids ss).nodes.map (fun n => n.id)
      = g.nodes.map fun n => n.id := by
  induction ids generalizing g ss with
  | nil => rw [applyScenarios_nil_ids]
  | cons i ids ih =>
    cases ss with
    | nil => rw [applyScenarios_nil_ss]
    | cons s ss =>
      rw [applyScenarios_cons, ih]
      exact map_updateFirst (fun n => n.id == i) (scenarioWrite s)
        (fun n => n.id) (fun a => rfl) g.nodes

/-- Scenario application never touches nodes left of the placeholders it
addresses. -/
theorem applyScenarios_front_untouched (pref rest : List Node) (E : List Edge) (b : Bool)
    (ids : List ℕ) (ss : List GeneratedNodeData)
    (hp : ∀ n ∈ pref, ∀ cid ∈ ids, (n.id == cid) = false) :
    (applyScenarios ⟨pref ++ rest, E, b⟩ ids ss).nodes
      = pref ++ (applyScenarios ⟨rest, E, b⟩ ids ss).nodes := by
  induction ids generalizing ss rest with
  | nil => rw [applyScenarios_nil_ids, applyScenarios_nil_ids]
  | cons i ids ih =>
    cases ss with
    | nil => rw [applyScenarios_nil_ss, applyScenarios_nil_ss]
    | cons s ss =>
      rw [applyScenarios_cons, applyScenarios_cons]
      have h1 : applyScenario ⟨pref ++ rest, E, b⟩ i s
          = ⟨pref ++ (applyScenario ⟨rest, E, b⟩ i s).nodes, E, b⟩ := by
        unfold applyScenario
        simp only [Graph.mk.injEq, and_true]
        exact updateFirst_append_of_none _ _ pref rest
          fun n hn => hp n hn i (by simp)
      have h2 : applyScenario ⟨rest, E, b⟩ i s
          = ⟨(applyScenario ⟨rest, E, b⟩ i s).nodes, E, b⟩ := rfl
      rw [h1, ih ((applyScenario ⟨rest, E, b⟩ i s).nodes) ss
        (fun n hn cid hcid => hp n hn cid (by simp [hcid])), ← h2]

theorem map_id_eq_three (l : List Node) (a b c : ℕ)
    (h : l.map (fun n => n.id) = [a, b, c]) :
    ∃ x y z, l = [x, y, z] ∧ x.id = a ∧ y.id = b ∧ z.id = c := by
  match l with
  | [] => simp at h
  | [x] => simp at h
  | [x, y] => simp at h
  | [x, y, z] =>
    simp only [List.map_cons, List.map_nil, List.cons.injEq, and_true] at h
    exact ⟨x, y, z, rfl, h.1, h.2.1, h.2.2⟩
  | x :: y :: z :: w :: l => simp at h

theorem node_expanded_update_self (n : Node) (h : n.expanded = false) :
    { n with expanded := false } = n := by
  cases n
  simp_all

theorem find?_cons_pos (p : α → Bool) (a : α) (l : List α) (h : p a = true) :
    List.find? p (a :: l) = some a := by
  simp [List.find?_cons, h]

theorem find?_cons_neg (p : α → Bool) (a : α) (l : List α) (h : p a = false) :
    List.find? p (a :: l) = List.find? p l := by
  simp [List.find?_cons, h]

/-- Setting the `expanded` flag of the first node with a given id and then
clearing it again restores the original list, provided the found node's
flag was clear to begin with. -/
theorem updateFirst_expanded_restore (l : List Node) (pid : ℕ) (node : Node)
    (hfind : findNodeL l pid = some node) (hexp : node.expanded = false) :
    updateFirst (fun n => n.id == pid) (fun n => { n with expanded := false })
      (updateFirst (fun n => n.id == pid) (fun n => { n with expanded := true }) l)
      = l := by
  induction l with
  | nil => rfl
  | cons a as ih =>
    by_cases hpa : (a.id == pid) = true
    · have hnode : node = a := by
        unfold findNodeL at hfind
        rw [find?_cons_pos (fun n => n.id == pid) a as hpa] at hfind
        exact (Option.some.inj hfind).symm
      rw [show updateFirst (fun n => n.id == pid)
            (fun n => { n with expanded := true }) (a :: as)
          = { a with expanded := true } :: as from by simp [updateFirst, hpa]]
      rw [show updateFirst (fun n => n.id == pid)
            (fun n => { n with expanded := false }) ({ a with expanded := true } :: as)
          = { a with expanded := false } :: as from by simp [updateFirst, hpa]]
      rw [node_expanded_update_self a (hnode ▸ hexp)]
    · have hfind' : findNodeL as pid = some node := by
        unfold findNodeL at hfind ⊢
        rwa [find?_cons_neg (fun n => n.id == pid) a as (by simpa using hpa)] at hfind
      simp only [updateFirst, hpa, Bool.false_eq_true, if_false]
      rw [ih hfind']


/-- Rollback of a failed expansion restores the graph exactly, for any
graph with dense ids and in-range edge targets (the invariants of every
reachable state): the three placeholders and their inbound edges are the
ones removed, and the cleared flag is the one that was set. -/
theorem expandNodeErr_restores (g : Graph) (nodeId : ℕ) (r0 r1 r2 : ℝ)
    (ss : List GeneratedNodeData)
    (hids : g.nodes.map (fun n => n.id) = List.range g.nodes.length)
    (hedges : ∀ e ∈ g.edges, e.toId < g.nodes.length) :
    expandNodeErr g nodeId r0 r1 r2 ss = g := by
  unfold expandNodeErr
  split
  · rfl
  · rename_i x node hfind
    split
    · rfl
    · rename_i hexp
      have hexp' : node.expanded = false := by
        simpa using hexp
      dsimp only
      obtain ⟨c0, c1, c2, hpr, hid0, hid1, hid2⟩ :=
        addPlaceholders_spec (setExpanded g nodeId true) node nodeId r0 r1 r2
      have hg1edges : (setExpanded g nodeId true).edges = g.edges := rfl
      have hg1init : (setExpanded g nodeId true).initDone = g.initDone := rfl
      have hlen1 : (setExpanded g nodeId true).nodes.length = g.nodes.length :=
        length_updateFirst _ _ _
      have hprefids : (setExpanded g nodeId true).nodes.map (fun n => n.id)
          = List.range g.nodes.length := by
        rw [show (setExpanded g nodeId true).nodes
            = updateFirst (fun n => n.id == nodeId)
              (fun n => { n with expanded := true }) g.nodes from rfl,
          map_updateFirst (fun n => n.id == nodeId)
            (fun n => { n with expanded := true }) (fun n => n.id)
            (fun a => rfl) g.nodes, hids]
      have hpreflt : ∀ n ∈ (setExpanded g nodeId true).nodes,
          n.id < g.nodes.length := by
        intro n hn
        have h1 : n.id ∈ (setExpanded g nodeId true).nodes.map (fun n => n.id) :=
          List.mem_map_of_mem _ hn
        rw [hprefids] at h1
        exact List.mem_range.mp h1
      have hc0L : c0.id = g.nodes.length := by rw [hid0, hlen1]
      have hc1L : c1.id = g.nodes.length + 1 := by rw [hid1, hlen1]
      have hc2L : c2.id = g.nodes.length + 2 := by rw [hid2, hlen1]
      rw [hpr]
      dsimp only
      simp only [List.map_cons, List.map_nil]
      rw [hg1edges, hg1init, hlen1, hc0L, hc1L, hc2L]
      have hfreshPref : ∀ n ∈ (setExpanded g nodeId true).nodes,
          ∀ cid ∈ [g.nodes.length, g.nodes.length + 1, g.nodes.length + 2],
          (n.id == cid) = false := by
        intro n hn cid hcid
        have hlt := hpreflt n hn
        apply beq_false_of_ne
        rcases (by simpa using hcid : cid = g.nodes.length ∨
          cid = g.nodes.length + 1 ∨ cid = g.nodes.length + 2) with h | h | h <;>
          (subst h; omega)
      obtain ⟨d0, d1, d2, hR, hd0, hd1, hd2⟩ :=
        map_id_eq_three
          ((applyScenarios ⟨[c0, c1, c2],
            g.edges ++ [createEdge nodeId g.nodes.length,
              createEdge nodeId (g.nodes.length + 1),
              createEdge nodeId (g.nodes.length + 2)], g.initDone⟩
            [g.nodes.length, g.nodes.length + 1, g.nodes.length + 2] ss).nodes)
          g.nodes.length (g.nodes.length + 1) (g.nodes.length + 2)
          (by rw [applyScenarios_map_id]
              simp [hc0L, hc1L, hc2L])
      have hGap : applyScenarios ⟨(setExpanded g nodeId true).nodes ++ [c0, c1, c2],
          g.edges ++ [createEdge nodeId g.nodes.length,
            createEdge nodeId (g.nodes.length + 1),
            createEdge nodeId (g.nodes.length + 2)], g.initDone⟩
          [g.nodes.length, g.nodes.length + 1, g.nodes.length + 2] ss
          = ⟨(setExpanded g nodeId true).nodes ++ [d0, d1, d2],
            g.edges ++ [createEdge nodeId g.nodes.length,
              createEdge nodeId (g.nodes.length + 1),
              createEdge nodeId (g.nodes.length + 2)], g.initDone⟩ := by
        refine graph_eq _ _ _ _ ?_ ?_ ?_
        · rw [applyScenarios_front_untouched _ _ _ _ _ _ hfreshPref, hR]
        · rw [applyScenarios_edges]
        · rw [applyScenarios_initDone]
      rw [hGap]
      simp only [List.foldl_cons, List.foldl_nil]
      have hedgefresh : ∀ m : ℕ, g.nodes.length ≤ m →
          ∀ e ∈ g.edges, (e.toId == m) = false := by
        intro m hm e he
        exact beq_false_of_ne (by have := hedges e he; omega)
      have hrm0 : removeBatch ⟨(setExpanded g nodeId true).nodes ++ [d0, d1, d2],
          g.edges ++ [createEdge nodeId g.nodes.length,
            createEdge nodeId (g.nodes.length + 1),
            createEdge nodeId (g.nodes.length + 2)], g.initDone⟩ c0
          = ⟨(setExpanded g nodeId true).nodes ++ [d1, d2],
            g.edges ++ [createEdge nodeId (g.nodes.length + 1),
              createEdge nodeId (g.nodes.length + 2)], g.initDone⟩ := by
        unfold removeBatch
        refine graph_eq _ _ _ _ ?_ ?_ rfl
        · show removeFirst (fun n : Node => n.id == c0.id) _ = _
          rw [hc0L, removeFirst_append_of_none _ _ _
            (fun n hn => hfreshPref n hn g.nodes.length (by simp))]
          simp [removeFirst, hd0]
        · show removeFirst (fun e : Edge => e.toId == c0.id) _ = _
          rw [hc0L, removeFirst_append_of_none _ _ _
            (hedgefresh g.nodes.length (le_refl _))]
          simp [removeFirst, createEdge]
      have hrm1 : removeBatch ⟨(setExpanded g nodeId true).nodes ++ [d1, d2],
          g.edges ++ [createEdge nodeId (g.nodes.length + 1),
            createEdge nodeId (g.nodes.length + 2)], g.initDone⟩ c1
          = ⟨(setExpanded g nodeId true).nodes ++ [d2],
            g.edges ++ [createEdge nodeId (g.nodes.length + 2)], g.initDone⟩ := by
        unfold removeBatch
        refine graph_eq _ _ _ _ ?_ ?_ rfl
        · show removeFirst (fun n : Node => n.id == c1.id) _ = _
          rw [hc1L, removeFirst_append_of_none _ _ _
            (fun n hn => hfreshPref n hn (g.nodes.length + 1) (by simp))]
          simp [removeFirst, hd1]
        · show removeFirst (fun e : Edge => e.toId == c1.id) _ = _
          rw [hc1L, removeFirst_append_of_none _ _ _
            (hedgefresh (g.nodes.length + 1) (by omega))]
          simp [removeFirst, createEdge]
      have hrm2 : removeBatch ⟨(setExpanded g nodeId true).nodes ++ [d2],
          g.edges ++ [createEdge nodeId (g.nodes.length + 2)], g.initDone⟩ c2
          = ⟨(setExpanded g nodeId true).nodes, g.edges, g.initDone⟩ := by
        unfold removeBatch
        refine graph_eq _ _ _ _ ?_ ?_ rfl
        · show removeFirst (fun n : Node => n.id == c2.id) _ = _
          rw [hc2L, removeFirst_append_of_none _ _ _
            (fun n hn => hfreshPref n hn (g.nodes.length + 2) (by simp))]
          simp [removeFirst, hd2]
        · show removeFirst (fun e : Edge => e.toId == c2.id) _ = _
          rw [hc2L, removeFirst_append_of_none _ _ _
            (hedgefresh (g.nodes.length + 2) (by omega))]
          simp [removeFirst, createEdge]
      rw [hrm0, hrm1, hrm2]
      refine graph_eq _ _ _ _ ?_ rfl rfl
      show updateFirst (fun n => n.id == nodeId) (fun n => { n with expanded := false })
        (setExpanded g nodeId true).nodes = g.nodes
      exact updateFirst_expanded_restore g.nodes nodeId node hfind hexp'


/-- A successful expansion preserves the dense-id and in-range-edge
invariants: the three appended placeholders take ids `length`,
`length+1`, `length+2` and their edges point at them. -/
theorem expandNodeOk_inv (g : Graph) (nodeId : ℕ) (r0 r1 r2 : ℝ)
    (ss : List GeneratedNodeData)
    (hids : g.nodes.map (fun n => n.id) = List.range g.nodes.length)
    (hedges : ∀ e ∈ g.edges, e.toId < g.nodes.length) :
    (expandNodeOk g nodeId r0 r1 r2 ss).nodes.map (fun n => n.id)
      = List.range (expandNodeOk g nodeId r0 r1 r2 ss).nodes.length ∧
    ∀ e ∈ (expandNodeOk g nodeId r0 r1 r2 ss).edges,
      e.toId < (expandNodeOk g nodeId r0 r1 r2 ss).nodes.length := by
  unfold expandNodeOk
  split
  · exact ⟨hids, hedges⟩
  · rename_i x node hfind
    split
    · exact ⟨hids, hedges⟩
    · dsimp only
      obtain ⟨c0, c1, c2, hpr, hid0, hid1, hid2⟩ :=
        addPlaceholders_spec (setExpanded g nodeId true) node nodeId r0 r1 r2
      have hg1edges : (setExpanded g nodeId true).edges = g.edges := rfl
      have hg1init : (setExpanded g nodeId true).initDone = g.initDone := rfl
      have hlen1 : (setExpanded g nodeId true).nodes.length = g.nodes.length :=
        length_updateFirst _ _ _
      have hprefids : (setExpanded g nodeId true).nodes.map (fun n => n.id)
          = List.range g.nodes.length := by
        rw [show (setExpanded g nodeId true).nodes
            = updateFirst (fun n => n.id == nodeId)
              (fun n => { n with expanded := true }) g.nodes from rfl,
          map_updateFirst (fun n => n.id == nodeId)
            (fun n => { n with expanded := true }) (fun n => n.id)
            (fun a => rfl) g.nodes, hids]
      have hc0L : c0.id = g.nodes.length := by rw [hid0, hlen1]
      have hc1L : c1.id = g.nodes.length + 1 := by rw [hid1, hlen1]
      have hc2L : c2.id = g.nodes.length + 2 := by rw [hid2, hlen1]
      rw [hpr]
      dsimp only
      simp only [List.map_cons, List.map_nil]
      rw [hg1edges, hg1init, hlen1, hc0L, hc1L, hc2L]
      have hmapid := applyScenarios_map_id
        ⟨(setExpanded g nodeId true).nodes ++ [c0, c1, c2],
          g.edges ++ [createEdge nodeId g.nodes.length,
            createEdge nodeId (g.nodes.length + 1),
            createEdge nodeId (g.nodes.length + 2)], g.initDone⟩
        [g.nodes.length, g.nodes.length + 1, g.nodes.length + 2] ss
      have hmap3 : (applyScenarios ⟨(setExpanded g nodeId true).nodes ++ [c0, c1, c2],
          g.edges ++ [createEdge nodeId g.nodes.length,
            createEdge nodeId (g.nodes.length + 1),
            createEdge nodeId (g.nodes.length + 2)], g.initDone⟩
          [g.nodes.length, g.nodes.length + 1, g.nodes.length + 2] ss).nodes.map
            (fun n => n.id)
          = List.range (g.nodes.length + 3) := by
        rw [hmapid]
        dsimp only
        simp only [List.map_append, List.map_cons, List.map_nil]
        rw [hprefids, hc0L, hc1L, hc2L]
        have : g.nodes.length + 3 = ((g.nodes.length + 1) + 1) + 1 := by omega
        rw [this, List.range_succ, List.range_succ, List.range_succ]
        simp [List.append_assoc]
      have hlennodes : (applyScenarios ⟨(setExpanded g nodeId true).nodes ++ [c0, c1, c2],
          g.edges ++ [createEdge nodeId g.nodes.length,
            createEdge nodeId (g.nodes.length + 1),
            createEdge nodeId (g.nodes.length + 2)], g.initDone⟩
          [g.nodes.length, g.nodes.length + 1, g.nodes.length + 2] ss).nodes.length
          = g.nodes.length + 3 := by
        have h1 := congrArg List.length hmap3
        simpa using h1
      constructor
      · rw [hmap3, hlennodes]
      · intro e he
        rw [applyScenarios_edges] at he
        rw [hlennodes]
        dsimp only at he
        rcases List.mem_append.mp he with h | h
        · have := hedges e h
          omega
        · simp only [List.mem_cons, List.not_mem_nil, or_false] at h
          rcases h with h | h | h <;> (subst h; simp [createEdge])

/-- Both invariants used above hold in every reachable graph state. -/
theorem reachable_inv (g : Graph) (h : Reachable g) :
    g.nodes.map (fun n => n.id) = List.range g.nodes.length ∧
    ∀ e ∈ g.edges, e.toId < g.nodes.length := by
  induction h with
  | init =>
    constructor
    · simp [initGraph, addNode, rootNode, createNode]
      rw [List.range_succ]
      simp
    · intro e he
      simp [initGraph, addNode, rootNode, createNode] at he
  | ok g nodeId r0 r1 r2 ss hg ih =>
    exact expandNodeOk_inv g nodeId r0 r1 r2 ss ih.1 ih.2
  | err g nodeId r0 r1 r2 ss hg ih =>
    rw [expandNodeErr_restores g nodeId r0 r1 r2 ss ih.1 ih.2]
    exact ih


theorem initGraph_map_id :
    initGraph.nodes.map (fun n => n.id) = List.range initGraph.nodes.length := by
  simp [initGraph, addNode, rootNode, createNode]
  rw [List.range_succ]
  simp

theorem initGraph_edges_empty : initGraph.edges = [] := rfl

theorem initGraph_edges_lt :
    ∀ e ∈ initGraph.edges, e.toId < initGraph.nodes.length := by
  intro e he
  simp [initGraph_edges_empty] at he

theorem findNode_initGraph : findNode initGraph 0 = some rootNode := by
  simp [findNode, findNodeL, initGraph, addNode, rootNode, createNode]

theorem rootNode_expanded : rootNode.expanded = false := rfl

theorem isLeafNode_initGraph : isLeafNode initGraph 0 = true := by
  simp [isLeafNode, getChildren, initGraph_edges_empty]

/-- C4: when the generation collaborator fails (after any partial stream
of records), the rollback of `expandNode` restores the exact
pre-expansion state: node and edge counts equal their old values, every
placeholder of this expansion (id at least the old node count) and its
inbound edge is gone, and the expanded node's flag is false again.  The
two invariant hypotheses hold in every reachable graph state
(`reachable_inv`). -/
theorem expandNode_failure_rollback (g : Graph) (nodeId : ℕ) (r0 r1 r2 : ℝ)
    (ss : List GeneratedNodeData) (node : Node)
    (hids : g.nodes.map (fun n => n.id) = List.range g.nodes.length)
    (hedges : ∀ e ∈ g.edges, e.toId < g.nodes.length)
    (hfind : findNode g nodeId = some node)
    (hleaf : isLeafNode g nodeId = true)
    (hexp : node.expanded = false) :
    expandNodeErr g nodeId r0 r1 r2 ss = g ∧
    (expandNodeErr g nodeId r0 r1 r2 ss).nodes.length = g.nodes.length ∧
    (expandNodeErr g nodeId r0 r1 r2 ss).edges.length = g.edges.length ∧
    (∀ n ∈ (expandNodeErr g nodeId r0 r1 r2 ss).nodes, n.id < g.nodes.length) ∧
    findNode (expandNodeErr g nodeId r0 r1 r2 ss) nodeId = some node ∧
    node.expanded = false := by
  have h := expandNodeErr_restores g nodeId r0 r1 r2 ss hids hedges
  rw [h]
  refine ⟨rfl, rfl, rfl, ?_, hfind, hexp⟩
  intro n hn
  have h1 : n.id ∈ g.nodes.map (fun n => n.id) := List.mem_map_of_mem _ hn
  rw [hids] at h1
  exact List.mem_range.mp h1

theorem expandNode_failure_rollback_witness :
    (initGraph.nodes.map (fun n => n.id) = List.range initGraph.nodes.length) ∧
    (∀ e ∈ initGraph.edges, e.toId < initGraph.nodes.length) ∧
    findNode initGraph 0 = some rootNode ∧
    isLeafNode initGraph 0 = true ∧
    rootNode.expanded = false ∧
    expandNodeErr initGraph 0 0 0 0 [] = initGraph :=
  ⟨initGraph_map_id, initGraph_edges_lt, findNode_initGraph, isLeafNode_initGraph,
    rootNode_expanded,
    (expandNode_failure_rollback initGraph 0 0 0 0 [] rootNode initGraph_map_id
      initGraph_edges_lt findNode_initGraph isLeafNode_initGraph rootNode_expanded).1⟩

/-- C9 (amended): in every reachable graph state — built by any sequence
of successful or failed-and-rolled-back expansions — the node ids read in
insertion order are exactly `0, 1, …, count-1`, hence unique and dense,
and a placeholder's id is assigned as the node count at its creation
time.  The no-reuse part of the claim fails: ids freed by a rollback are
assigned again by the next expansion (see the counterexample). -/
theorem reachable_ids_dense (g : Graph) (h : Reachable g) :
    g.nodes.map (fun n => n.id) = List.range g.nodes.length ∧
    (g.nodes.map fun n => n.id).Nodup ∧
    ∀ (g2 : Graph) (r : ℝ) (nd : Node) (nid : ℕ),
      (makePlaceholder g2 r nd nid).id = g2.nodes.length := by
  have hinv := reachable_inv g h
  exact ⟨hinv.1, by rw [hinv.1]; exact List.nodup_range _,
    fun g2 r nd nid => rfl⟩

theorem reachable_ids_dense_witness :
    Reachable initGraph ∧
    initGraph.nodes.map (fun n => n.id) = List.range initGraph.nodes.length ∧
    (initGraph.nodes.map fun n => n.id).Nodup :=
  ⟨Reachable.init, (reachable_ids_dense initGraph Reachable.init).1,
    (reachable_ids_dense initGraph Reachable.init).2.1⟩

/-- C9 counterexample, the id-reuse part: expanding the root of the
initial graph assigns ids 1, 2, 3 to the three placeholders; when the
generation fails, the rollback returns the graph to its initial
single-node state (so ids 1, 2, 3 are free again), and a subsequent
successful expansion creates three new nodes carrying the same ids
1, 2, 3 — an id once assigned is later reused. -/
theorem id_reuse_after_rollback :
    ((addPlaceholders (setExpanded initGraph 0 true) rootNode 0 0 0 0).1.nodes.map
      fun n => n.id) = [0, 1, 2, 3] ∧
    expandNodeErr initGraph 0 0 0 0 [] = initGraph ∧
    ((expandNodeOk (expandNodeErr initGraph 0 0 0 0 []) 0 0 0 0 []).nodes.map
      fun n => n.id) = [0, 1, 2, 3] ∧
    (initGraph.nodes.map fun n => n.id) = [0] := by
  have hroot0 : initGraph.nodes.map (fun n => n.id) = [0] := by
    simp [initGraph, addNode, rootNode, createNode]
  have herr : expandNodeErr initGraph 0 0 0 0 [] = initGraph :=
    expandNodeErr_restores initGraph 0 0 0 0 [] initGraph_map_id initGraph_edges_lt
  obtain ⟨c0, c1, c2, hpr, hid0, hid1, hid2⟩ :=
    addPlaceholders_spec (setExpanded initGraph 0 true) rootNode 0 0 0 0
  have hlen1 : (setExpanded initGraph 0 true).nodes.length = 1 := by
    have h1 : (setExpanded initGraph 0 true).nodes.length
        = initGraph.nodes.length := length_updateFirst _ _ _
    rw [h1]
    rfl
  have hprefids : (setExpanded initGraph 0 true).nodes.map (fun n => n.id) = [0] := by
    rw [show (setExpanded initGraph 0 true).nodes
        = updateFirst (fun n => n.id == 0)
          (fun n => { n with expanded := true }) initGraph.nodes from rfl,
      map_updateFirst (fun n => n.id == 0)
        (fun n => { n with expanded := true }) (fun n => n.id)
        (fun a => rfl) initGraph.nodes, hroot0]
  have ha : ((addPlaceholders (setExpanded initGraph 0 true) rootNode 0 0 0 0).1.nodes.map
      fun n => n.id) = [0, 1, 2, 3] := by
    rw [hpr]
    dsimp only
    simp only [List.map_append, List.map_cons, List.map_nil]
    rw [hprefids, hid0, hid1, hid2, hlen1]
    rfl
  have hok : expandNodeOk initGraph 0 0 0 0 []
      = (addPlaceholders (setExpanded initGraph 0 true) rootNode 0 0 0 0).1 := by
    unfold expandNodeOk
    split
    · next heq =>
      rw [findNode_initGraph] at heq
      exact absurd heq (by simp)
    · next node heq =>
      rw [findNode_initGraph] at heq
      have hnode : rootNode = node := Option.some.inj heq
      subst hnode
      split
      · next hexp => exact absurd hexp (by simp [rootNode, createNode])
      · dsimp only
        rw [applyScenarios_nil_ss]
  refine ⟨ha, herr, ?_, hroot0⟩
  rw [herr, hok]
  exact ha

end
